import Mathlib

/-!
Verification of the camera-stream / prediction-orchestrator node
(`thesis-raspi5-node`).

The repository ships several near-duplicate server variants.  The variant
actually served to the dashboard (the dashboard polls port 9003) is the one
embedded here for the orchestrator: it is the server program that declares
`systemErrors`, `addSystemError`, the 10-second single-frame capture timeout
and the `GET /api/errors` route (the server source concatenated inside
`src/src/components/PredictionLog.tsx`, second document).  The resolution
negotiation (`detectCameraResolution`) lives in `src/unnamed/part_002`.
The default-model fallback of `getModelList` cited by the claims is the one
of `src/unnamed/part_001` (first document, lines 52-61).

Machine integers are modelled as `Nat`/`Int`; time is in abstract units
(1 unit = 1 second of the JS `setTimeout` bounds); byte buffers are
`List Nat`.
-/

/-- A detected camera descriptor (`detectCameras`): id, device path and
assigned stream port. -/
structure Camera where
  id : Nat
  device : String
  streamPort : Nat
  deriving DecidableEq, Repr

/-- A stored prediction (`sendPrediction`): camera id, model id, timestamp
and the opaque inference result. -/
structure PredictionRecord where
  cameraId : Nat
  model : String
  timestamp : Nat
  result : String
  deriving DecidableEq, Repr

/-- A stored error (`addSystemError`): camera id, error message, timestamp. -/
structure ErrorRecord where
  cameraId : Nat
  error : String
  timestamp : Nat
  deriving DecidableEq, Repr

/-- Source (server, `sendPrediction`):
`predictions.unshift(prediction); if (predictions.length > 100) predictions = predictions.slice(0, 100);`
`unshift` prepends, `slice(0, 100)` keeps the first 100 entries. -/
def pushPrediction (p : PredictionRecord) (ps : List PredictionRecord) :
    List PredictionRecord :=
  let ps' := p :: ps
  if 100 < ps'.length then ps'.take 100 else ps'

/-- Source (server, `addSystemError`):
`systemErrors.unshift(errorEntry); if (systemErrors.length > 50) systemErrors = systemErrors.slice(0, 50);` -/
def addSystemError (e : ErrorRecord) (es : List ErrorRecord) :
    List ErrorRecord :=
  let es' := e :: es
  if 50 < es'.length then es'.take 50 else es'

/-! ## The single-frame capture service (`captureFrame`, server lines 292-378)

The subprocess behaviour is modelled explicitly: the stdout `data` events it
would emit (with their times, in units where the JS timeout constant 10000 ms
is 10 units), and its `close` event (time and exit code), or `none` if the
process never exits.  `spawnError` models the `error` event of a failed
spawn. -/

structure ProcRun where
  spawnError : Bool
  /-- stdout `data` events: (time of the event, bytes of the chunk). -/
  chunks : List (Nat × List Nat)
  /-- `close` event: (time, exit code), or `none` when the process never
  exits on its own. -/
  close : Option (Nat × Int)
  deriving DecidableEq, Repr

/-- Source: `setTimeout(..., 10000)` in `captureFrame`. -/
def captureTimeout : Nat := 10

/-- Result of a `captureFrame` invocation.  `pending` records that the
returned promise never settles. -/
inductive CaptureOutcome where
  | ok (buffer : List Nat)
  | errorCapture (exitCode : Int)
  | errorTimeout
  | errorSpawn
  | pending
  deriving DecidableEq, Repr

/-- The accumulated `imageBuffer`: `Buffer.concat` of all stdout chunks. -/
def ProcRun.buffer (p : ProcRun) : List Nat :=
  (p.chunks.map Prod.snd).flatten

/-- `hasData` as seen by the timeout callback at time `captureTimeout`:
some stdout data event happened strictly before the timer fired. -/
def ProcRun.dataBeforeTimeout (p : ProcRun) : Bool :=
  p.chunks.any (fun c => c.fst < captureTimeout)

/-- `hasData` as seen by the `close` handler: any stdout data event at all. -/
def ProcRun.hasData (p : ProcRun) : Bool :=
  !p.chunks.isEmpty

/-- Source (server `captureFrame`, lines 310-377).  The promise settles with
whichever handler runs first:
* the `close` handler resolves iff `code === 0 && hasData && imageBuffer.length > 0`,
  otherwise it rejects with a capture error (and calls `addSystemError`);
* the `error` handler rejects on a spawn error;
* the timer at 10 units kills the subprocess and rejects with a timeout error
  only when `!hasData`, i.e. only when no stdout data arrived before it fired;
  if data has arrived the timer does nothing, and when the process never
  exits the promise stays pending forever.
Event ties at exactly 10 units are resolved in favour of the timer. -/
def captureFrame (p : ProcRun) : CaptureOutcome :=
  if p.spawnError then .errorSpawn
  else
    match p.close with
    | some (tc, code) =>
        if tc < captureTimeout ∨ p.dataBeforeTimeout then
          if code = 0 ∧ p.hasData ∧ 0 < p.buffer.length then .ok p.buffer
          else .errorCapture code
        else .errorTimeout
    | none =>
        if p.dataBeforeTimeout then .pending else .errorTimeout

/-! ## The remote inference client (`sendPrediction`, server lines 380-420) -/

/-- Outcome of the outbound prediction request as the environment decides
it: a parsed JSON body on success, a non-success HTTP status, or a
transport/parse failure. -/
inductive InferOutcome where
  | ok (result : String)
  | httpError (status : Nat)
  | transportError
  deriving DecidableEq, Repr

/-- Source (`sendPrediction`): on success builds the prediction record and
pushes it into the `predictions` ring; on `!response.ok` it throws, and the
surrounding `catch` only logs (`console.error`) and returns `null` - in
particular it appends nothing to `systemErrors`. -/
def sendPrediction (cam : Camera) (model : String) (ts : Nat)
    (o : InferOutcome) (preds : List PredictionRecord) :
    List PredictionRecord × Option PredictionRecord :=
  match o with
  | .ok r =>
      let entry := { cameraId := cam.id, model := model, timestamp := ts,
                     result := r : PredictionRecord }
      (pushPrediction entry preds, some entry)
  | _ => (preds, none)

/-! ## The prediction orchestrator (`predictionLoop`, server lines 422-445) -/

/-- Per-camera environment for one tick: the capture subprocess behaviour,
the inference outcome for the uploaded frame, and the wall-clock timestamps
written into records. -/
structure CamEnv where
  proc : ProcRun
  infer : InferOutcome
  tsPred : Nat
  tsErr : Nat
  deriving Repr

/-- The module-level mutable server state (`cameras`, `currentModels`,
`currentModelIndex`, `predictions`, `systemErrors`). -/
structure ServerState where
  cameras : List Camera
  currentModels : List String
  currentModelIndex : Nat
  predictions : List PredictionRecord
  systemErrors : List ErrorRecord
  deriving DecidableEq, Repr

/-- `currentModels[currentModelIndex]` as read at the start of a tick. -/
def usedModel (s : ServerState) : String :=
  s.currentModels.getD s.currentModelIndex ""

/-- Message of the capture close-handler reject
(`Failed to capture frame from MJPEG stream for camera ${id}. Exit code: ${code}. ...`;
the appended stderr text is not modelled). -/
def closeFailMsg (camId : Nat) (code : Int) : String :=
  "Failed to capture frame from MJPEG stream for camera " ++ toString camId
    ++ ". Exit code: " ++ toString code

/-- Message of the capture timeout reject
(`Timeout capturing frame from camera ${id}`). -/
def timeoutMsg (camId : Nat) : String :=
  "Timeout capturing frame from camera " ++ toString camId

/-- Message of the capture spawn-error reject
(`FFmpeg error for camera ${id}: ...`; the inner error text is not
modelled). -/
def spawnFailMsg (camId : Nat) : String :=
  "FFmpeg error for camera " ++ toString camId

/-- Message of `predictionLoop`'s catch
(`Camera ${id} capture failed: ${error.message}`). -/
def loopCatchMsg (camId : Nat) (inner : String) : String :=
  "Camera " ++ toString camId ++ " capture failed: " ++ inner

/-- Processing of one camera inside a tick, acting on the
(`systemErrors`, `predictions`) pair in the order the buffer mutations are
executed:
* capture resolves: `sendPrediction` runs; only a successful inference
  appends a prediction record, a failed one appends nothing anywhere;
* capture rejects: `captureFrame` itself already called `addSystemError`
  once on its failure path, and the `catch` of `predictionLoop` then calls
  `addSystemError` again with the wrapped message - two error records per
  failed capture.  (For a timed-out capture the killed subprocess fires one
  more late `close` event whose handler appends a third record; that late
  event is outside the tick and not modelled.)
* a never-settling capture (`pending`) keeps `Promise.all` pending: the tick
  never completes, so a completed tick presupposes every camera settled. -/
def processCamera (model : String) (env : Nat → CamEnv)
    (acc : List ErrorRecord × List PredictionRecord) (cam : Camera) :
    List ErrorRecord × List PredictionRecord :=
  let e := env cam.id
  match captureFrame e.proc with
  | .ok _buf =>
      (acc.1, (sendPrediction cam model e.tsPred e.infer acc.2).1)
  | .errorCapture code =>
      let m := closeFailMsg cam.id code
      (addSystemError { cameraId := cam.id, error := loopCatchMsg cam.id m,
                        timestamp := e.tsErr }
        (addSystemError { cameraId := cam.id, error := m, timestamp := e.tsErr }
          acc.1), acc.2)
  | .errorTimeout =>
      let m := timeoutMsg cam.id
      (addSystemError { cameraId := cam.id, error := loopCatchMsg cam.id m,
                        timestamp := e.tsErr }
        (addSystemError { cameraId := cam.id, error := m, timestamp := e.tsErr }
          acc.1), acc.2)
  | .errorSpawn =>
      let m := spawnFailMsg cam.id
      (addSystemError { cameraId := cam.id, error := loopCatchMsg cam.id m,
                        timestamp := e.tsErr }
        (addSystemError { cameraId := cam.id, error := m, timestamp := e.tsErr }
          acc.1), acc.2)
  | .pending => acc

/-- One completed `predictionLoop` tick.  `completion` is the order in which
the per-camera promises settle (ring-buffer mutations are executed in
completion order on the single-threaded event loop); it is a permutation of
`cameras`.  Source:
* line 423: `if (cameras.length === 0 || currentModels.length === 0) return;`
* line 427: `const currentModel = currentModels[currentModelIndex];`
* lines 430-442: per-camera concurrent capture + inference, awaited
  collectively by `Promise.all`;
* line 444: `currentModelIndex = (currentModelIndex + 1) % currentModels.length;` -/
def predictionLoop (env : Nat → CamEnv) (completion : List Camera)
    (s : ServerState) : ServerState :=
  if s.cameras.isEmpty || s.currentModels.isEmpty then s
  else
    let model := usedModel s
    let r := completion.foldl (processCamera model env)
      (s.systemErrors, s.predictions)
    { s with systemErrors := r.1, predictions := r.2,
             currentModelIndex :=
               (s.currentModelIndex + 1) % s.currentModels.length }

/-- Iterated completed ticks, with per-tick environments and completion
orders. -/
def ticksAfter (envs : Nat → Nat → CamEnv) (comps : Nat → List Camera)
    (s : ServerState) : Nat → ServerState
  | 0 => s
  | k + 1 => predictionLoop (envs k) (comps k) (ticksAfter envs comps s k)

/-! ## The status endpoint (`GET /api/status`, server lines 463-471) -/

structure StatusResponse where
  cameras : Nat
  models : List String
  currentModel : Option String
  totalPredictions : Nat
  uptime : Nat
  deriving DecidableEq, Repr

/-- Source: `res.json({ cameras: cameras.length, models: currentModels,
currentModel: currentModels[currentModelIndex] || null,
totalPredictions: predictions.length, uptime: process.uptime() })`.
`x || null` maps a falsy value (out-of-range access or empty string) to
`null`. -/
def statusOf (s : ServerState) (uptime : Nat) : StatusResponse :=
  { cameras := s.cameras.length,
    models := s.currentModels,
    currentModel :=
      match s.currentModels.get? s.currentModelIndex with
      | some m => if m = "" then none else some m
      | none => none,
    totalPredictions := s.predictions.length,
    uptime := uptime }

/-! ## The periodic timer (`setInterval(predictionLoop, 2000)`, line 495)

`setInterval` invokes `predictionLoop` on every period unconditionally; the
body's only early return is the emptiness guard of line 423.  No flag records
an in-flight tick, so a firing while previous per-camera operations are
outstanding starts a new tick and spawns a new capture subprocess for every
camera.  `timerFire` models exactly this spawning step; `outstanding` tracks
the in-flight captures as (tick sequence number, camera id) pairs. -/

structure LoopSystem where
  state : ServerState
  outstanding : List (Nat × Nat)
  tickSeq : Nat
  deriving DecidableEq, Repr

def timerFire (sys : LoopSystem) : LoopSystem :=
  if sys.state.cameras.isEmpty || sys.state.currentModels.isEmpty then sys
  else
    { sys with
        outstanding :=
          sys.outstanding ++ sys.state.cameras.map (fun c => (sys.tickSeq, c.id)),
        tickSeq := sys.tickSeq + 1 }

/-- Number of outstanding single-frame captures for one camera. -/
def outstandingFor (camId : Nat) (sys : LoopSystem) : Nat :=
  (sys.outstanding.filter (fun o => o.snd = camId)).length

/-! ## The model roster initializer (`getModelList`, part_001 lines 52-61) -/

/-- A JavaScript value as far as truthiness and roster use are concerned. -/
inductive JsData where
  | jsNull
  | jsUndef
  | jsStr (s : String)
  | jsArr (models : List String)
  deriving DecidableEq, Repr

/-- JavaScript truthiness: `null`, `undefined` and the empty string are
falsy; every array (also the empty one) is truthy. -/
def JsData.truthy : JsData → Bool
  | .jsNull => false
  | .jsUndef => false
  | .jsStr s => !(s = "")
  | .jsArr _ => true

/-- The roster length a `JsData` yields when used as `currentModels`. -/
def JsData.rosterLength : JsData → Nat
  | .jsArr ms => ms.length
  | .jsStr s => s.length
  | _ => 0

def defaultModels : List String := ["bacterial-disease", "early-blight"]

/-- Source (part_001, `getModelList`):
```
try { const response = await axios.get(...);
      return response.data || ["bacterial-disease", "early-blight"]; }
catch (error) { return ["bacterial-disease", "early-blight"]; }
```
The argument is the outcome of the HTTP request (`error` for the catch
path, `ok` with the parsed body's `data` otherwise). -/
def getModelList (r : Except Unit JsData) : JsData :=
  match r with
  | .error _ => .jsArr defaultModels
  | .ok d => if d.truthy then d else .jsArr defaultModels

/-! ## Resolution negotiation (`detectCameraResolution`, part_002 lines 9-86)

The probe spawns ffmpeg, accumulates stderr into `output`, and on `close`
parses it.  Windows: every line is matched against the global regex
`/(\d{3,4}x\d{3,4})/g`.  Linux: every line is matched against
`/Size: Discrete (\d{3,4}x\d{3,4})/` (first match of the line only).
Tokens are deduplicated in first-occurrence order, mapped to
width/height/pixels, sorted by pixel count descending (JS `sort` is
stable), and the first with width ≤ 1920 and height ≤ 1080 is selected;
otherwise the fallback `1280x720`.  An `error` event or the 5-unit timeout
resolves the fallback directly. -/

/-- Length of the leading digit run. -/
def digitRun (cs : List Char) : Nat :=
  (cs.takeWhile Char.isDigit).length

/-- Match of the regex `\d{3,4}x\d{3,4}` anchored at the start of `cs`:
the token and the remainder after it, or `none`.  Greedy matching with
backtracking collapses to: the leading digit run must have length exactly 3
or 4 (a longer run leaves a digit, not `x`, after the at-most-4 consumed
digits), then `x`, then at least 3 digits of which min(run, 4) are
consumed. -/
def matchTokenAt (cs : List Char) : Option (String × List Char) :=
  let n1 := digitRun cs
  if n1 = 3 ∨ n1 = 4 then
    match cs.drop n1 with
    | 'x' :: rest =>
        let n2 := digitRun rest
        if 3 ≤ n2 then
          let l2 := min n2 4
          some (⟨cs.take n1⟩ ++ "x" ++ ⟨rest.take l2⟩, rest.drop l2)
        else none
    | _ => none
  else none

/-- All matches of `/(\d{3,4}x\d{3,4})/g` over a line, left to right,
non-overlapping, resuming after each match (JS `String.match` with the `g`
flag).  Fuel-driven recursion; the fuel is the line length, which bounds
the number of scanning steps. -/
def scanGo : Nat → List Char → List String
  | 0, _ => []
  | _ + 1, [] => []
  | fuel + 1, c :: rest =>
      match matchTokenAt (c :: rest) with
      | some (tok, remaining) => tok :: scanGo fuel remaining
      | none => scanGo fuel rest

def scanTokens (line : List Char) : List String :=
  scanGo line.length line

/-- `output.split('\\n')` at the character level (structural recursion, so
that concrete probe outputs evaluate inside the kernel). -/
def splitOnChar (sep : Char) : List Char -> List (List Char)
  | [] => [[]]
  | a :: rest =>
      match splitOnChar sep rest with
      | [] => if a = sep then [[], []] else [[a]]
      | h :: t => if a = sep then [] :: h :: t else (a :: h) :: t

/-- `resolutions.includes(res) || resolutions.push(res)`: append if new,
preserving first-occurrence order. -/
def pushUnique (acc : List String) (tok : String) : List String :=
  if tok ∈ acc then acc else acc ++ [tok]

/-- Windows branch (part_002 lines 31-43): all `\d{3,4}x\d{3,4}` tokens of
every line, deduplicated. -/
def extractWindows (output : String) : List String :=
  (splitOnChar (Char.ofNat 10) output.toList).foldl
    (fun acc line => (scanTokens line).foldl pushUnique acc) []

/-- First match of `/Size: Discrete (\d{3,4}x\d{3,4})/` in a line: the
engine tries each start position left to right; at a position the literal
`Size: Discrete ` must match, immediately followed by a token. -/
def findSizeDiscrete : List Char → Option String
  | [] => none
  | c :: rest =>
      if ("Size: Discrete ".toList).isPrefixOf (c :: rest) then
        match matchTokenAt ((c :: rest).drop 15) with
        | some (tok, _) => some tok
        | none => findSizeDiscrete rest
      else findSizeDiscrete rest

/-- Linux branch (part_002 lines 44-56): the first `Size: Discrete` token
of every line, deduplicated. -/
def extractLinux (output : String) : List String :=
  (splitOnChar (Char.ofNat 10) output.toList).foldl
    (fun acc line =>
      match findSizeDiscrete line with
      | some tok => pushUnique acc tok
      | none => acc) []

/-- `const [width, height] = res.split('x').map(Number)`. -/
structure ResCand where
  res : String
  width : Nat
  height : Nat
  deriving DecidableEq, Repr

def ResCand.pixels (c : ResCand) : Nat := c.width * c.height

/-- Digit characters to the number they denote (the tokens fed to `Number`
are always plain digit runs). -/
def charsToNat (cs : List Char) : Nat :=
  cs.foldl (fun n c => 10 * n + (c.toNat - 48)) 0

def toCandidate (tok : String) : ResCand :=
  match splitOnChar 'x' tok.toList with
  | [w, h] => { res := tok, width := charsToNat w, height := charsToNat h }
  | _ => { res := tok, width := 0, height := 0 }

def candidates (toks : List String) : List ResCand := toks.map toCandidate

/-- Stable insertion for descending pixel order: the new element goes after
every element with at least as many pixels (JS stable `sort` with
comparator `(a, b) => b.pixels - a.pixels`, elements fed left to right). -/
def insertPixDesc (a : ResCand) : List ResCand → List ResCand
  | [] => [a]
  | b :: bs => if b.pixels < a.pixels then a :: b :: bs else b :: insertPixDesc a bs

def sortPixDesc (l : List ResCand) : List ResCand :=
  l.foldl (fun acc a => insertPixDesc a acc) []

/-- `r.width <= 1920 && r.height <= 1080`. -/
def withinBound (c : ResCand) : Bool :=
  c.width ≤ 1920 && c.height ≤ 1080

def fallbackRes : String := "1280x720"

/-- part_002 lines 58-68: rank deduplicated tokens by pixel count
descending, pick the first within 1920x1080, else the fallback. -/
def selectResolution (toks : List String) : String :=
  match (sortPixDesc (candidates toks)).find? withinBound with
  | some r => r.res
  | none => fallbackRes

/-- Source: `setTimeout(..., 5000)` in `detectCameraResolution`. -/
def probeTimeout : Nat := 5

/-- Behaviour of one probe invocation: an `error` event, or a `close` event
carrying the accumulated stderr text at a given time. -/
inductive ProbeRun where
  | errors
  | closes (stderrOutput : String) (t : Nat)
  deriving DecidableEq, Repr

/-- part_002 lines 9-86.  The promise resolves with whichever comes first:
the `error` handler (fallback), the 5-unit timeout (kill + fallback), or
the `close` handler (parse + select).  A `close` at or after the timeout
loses the race: its `resolve` is ignored. -/
def detectCameraResolution (isWindows : Bool) (p : ProbeRun) : String :=
  match p with
  | .errors => fallbackRes
  | .closes out t =>
      if t < probeTimeout then
        selectResolution ((if isWindows then extractWindows else extractLinux) out)
      else fallbackRes

/-- The capture outcomes on which the per-camera promise rejects (and the
orchestrator's catch runs). -/
def isCaptureFailure : CaptureOutcome → Bool
  | .errorCapture _ => true
  | .errorTimeout => true
  | .errorSpawn => true
  | .ok _ => false
  | .pending => false

/-! ## Helper lemmas -/

theorem addSystemError_length (e : ErrorRecord) (es : List ErrorRecord) :
    (addSystemError e es).length = min 50 (es.length + 1) := by
  simp only [addSystemError]
  split <;> simp_all [List.length_take] <;> omega

theorem addSystemError_of_lt (e : ErrorRecord) (es : List ErrorRecord)
    (h : es.length + 1 ≤ 50) : addSystemError e es = e :: es := by
  simp only [addSystemError]
  split <;> simp_all <;> omega

theorem addSystemError_eviction (e : ErrorRecord) (es : List ErrorRecord)
    (h : es.length = 50) : addSystemError e es = e :: es.dropLast := by
  simp only [addSystemError]
  rw [if_pos (by simp [h])]
  rw [List.dropLast_eq_take]
  simp [h]

theorem mem_addSystemError (x e : ErrorRecord) (es : List ErrorRecord)
    (h : x ∈ addSystemError e es) : x = e ∨ x ∈ es := by
  simp only [addSystemError] at h
  split at h
  · have := (List.take_sublist 50 (e :: es)).subset h
    simpa using this
  · simpa using h

theorem pushPrediction_length (p : PredictionRecord) (ps : List PredictionRecord) :
    (pushPrediction p ps).length = min 100 (ps.length + 1) := by
  simp only [pushPrediction]
  split <;> simp_all [List.length_take] <;> omega

theorem pushPrediction_eviction (p : PredictionRecord) (ps : List PredictionRecord)
    (h : ps.length = 100) : pushPrediction p ps = p :: ps.dropLast := by
  simp only [pushPrediction]
  rw [if_pos (by simp [h])]
  rw [List.dropLast_eq_take]
  simp [h]

theorem ProcRun.hasData_of_buffer_ne (p : ProcRun) (h : p.buffer ≠ []) :
    p.hasData = true := by
  simp only [ProcRun.hasData, Bool.not_eq_true', List.isEmpty_eq_false_iff_exists_mem]
  rcases hc : p.chunks with _ | ⟨c, cs⟩
  · exact absurd (by simp [ProcRun.buffer, hc]) h
  · exact ⟨c, by simp⟩

/-! ## Claim C2 -/

/-- C2, as stated, is false on the code: `setInterval(predictionLoop, 2000)`
fires unconditionally and `predictionLoop` has no in-flight guard, so a
timer firing while the previous tick's capture for camera 0 is still
outstanding starts a second capture for camera 0: after two fires with no
completion in between, two captures for camera 0 are outstanding, which the
claim forbids. -/
theorem C2_counterexample :
    outstandingFor 0 (timerFire
      { state := { cameras := [{ id := 0, device := "/dev/video0", streamPort := 20000 }],
                   currentModels := ["bacterial-disease"], currentModelIndex := 0,
                   predictions := [], systemErrors := [] },
        outstanding := [], tickSeq := 0 }) = 1 ∧
    outstandingFor 0 (timerFire (timerFire
      { state := { cameras := [{ id := 0, device := "/dev/video0", streamPort := 20000 }],
                   currentModels := ["bacterial-disease"], currentModelIndex := 0,
                   predictions := [], systemErrors := [] },
        outstanding := [], tickSeq := 0 })) = 2 := by
  exact ⟨rfl, rfl⟩

/-- C2 amended: the periodic timer invokes the prediction loop every period
unconditionally; the only guard is the empty-cameras/empty-roster check, so
whenever cameras and roster are non-empty a firing starts a new tick and
spawns one new capture per camera regardless of how many operations of
previous ticks are still outstanding — overlapping ticks and multiple
outstanding captures per camera are possible. -/
theorem C2_amended_theorem (sys : LoopSystem)
    (hc : sys.state.cameras ≠ []) (hm : sys.state.currentModels ≠ []) :
    (timerFire sys).outstanding
      = sys.outstanding ++ sys.state.cameras.map (fun c => (sys.tickSeq, c.id)) ∧
    (timerFire sys).outstanding.length
      = sys.outstanding.length + sys.state.cameras.length ∧
    (∀ c ∈ sys.state.cameras,
      outstandingFor c.id sys + 1 ≤ outstandingFor c.id (timerFire sys)) := by
  have hguard : (sys.state.cameras.isEmpty || sys.state.currentModels.isEmpty) = false := by
    simp [List.isEmpty_iff, hc, hm]
  refine ⟨?_, ?_, ?_⟩
  · simp [timerFire, hguard]
  · simp [timerFire, hguard]
  · intro c hcmem
    simp only [outstandingFor, timerFire, hguard, Bool.false_eq_true, if_false,
      List.filter_append, List.length_append]
    have : 1 ≤ ((sys.state.cameras.map (fun c => (sys.tickSeq, c.id))).filter
        (fun o => o.snd = c.id)).length := by
      have hmem : (sys.tickSeq, c.id) ∈
          (sys.state.cameras.map (fun c => (sys.tickSeq, c.id))).filter
            (fun o => o.snd = c.id) := by
        simp only [List.mem_filter, List.mem_map]
        exact ⟨⟨c, hcmem, rfl⟩, by simp⟩
      exact List.length_pos_of_mem hmem
    omega

theorem C2_amended_witness :
    (({ state := { cameras := [{ id := 0, device := "/dev/video0", streamPort := 20000 }],
                   currentModels := ["bacterial-disease"], currentModelIndex := 0,
                   predictions := [], systemErrors := [] },
        outstanding := [(0, 0)], tickSeq := 1 } : LoopSystem).state.cameras ≠ []) ∧
    (({ state := { cameras := [{ id := 0, device := "/dev/video0", streamPort := 20000 }],
                   currentModels := ["bacterial-disease"], currentModelIndex := 0,
                   predictions := [], systemErrors := [] },
        outstanding := [(0, 0)], tickSeq := 1 } : LoopSystem).state.currentModels ≠ []) ∧
    (timerFire
      { state := { cameras := [{ id := 0, device := "/dev/video0", streamPort := 20000 }],
                   currentModels := ["bacterial-disease"], currentModelIndex := 0,
                   predictions := [], systemErrors := [] },
        outstanding := [(0, 0)], tickSeq := 1 }).outstanding = [(0, 0), (1, 0)] := by
  refine ⟨by decide, by decide, ?_⟩
  have h := C2_amended_theorem
    { state := { cameras := [{ id := 0, device := "/dev/video0", streamPort := 20000 }],
                 currentModels := ["bacterial-disease"], currentModelIndex := 0,
                 predictions := [], systemErrors := [] },
      outstanding := [(0, 0)], tickSeq := 1 } (by decide) (by decide)
  exact h.1

/-! ## Claim C3 -/

/-- C3, as stated, is false on the code: the 10-unit timer in `captureFrame`
only kills the subprocess and rejects when no stdout data has arrived
(`if (!hasData)`).  A subprocess that emitted one chunk at time 1 and exits
only at time 50 is past the timeout without having exited, yet it is not
terminated and the capture resolves successfully; with no exit at all the
promise even stays pending forever. -/
theorem C3_counterexample :
    captureFrame { spawnError := false, chunks := [(1, [7])],
                   close := some (50, 0) } = .ok [7] ∧
    captureTimeout < 50 ∧
    captureFrame { spawnError := false, chunks := [(1, [7])],
                   close := none } = .pending := by
  exact ⟨rfl, by decide, rfl⟩

/-- C3 amended: the 10-unit timeout of the single-frame capture applies only
to invocations whose subprocess has produced no stdout data when the timer
expires; exactly those are killed and fail with a timeout error.  If data
arrived before the timer, no timeout is enforced: the operation settles only
at subprocess exit, and never settles when the subprocess never exits. -/
theorem C3_amended_theorem (p : ProcRun) (hs : p.spawnError = false) :
    (captureFrame p = .errorTimeout ↔
      (p.dataBeforeTimeout = false ∧
        ∀ tc code, p.close = some (tc, code) → captureTimeout ≤ tc)) ∧
    (captureFrame p = .pending ↔
      (p.dataBeforeTimeout = true ∧ p.close = none)) := by
  rcases hclose : p.close with _ | ⟨tc, code⟩
  · by_cases hd : p.dataBeforeTimeout = true
    · simp [captureFrame, hs, hclose, hd]
    · simp only [Bool.not_eq_true] at hd
      simp [captureFrame, hs, hclose, hd]
  · by_cases hd : p.dataBeforeTimeout = true
    · constructor
      · simp only [captureFrame, hs, Bool.false_eq_true, if_false, hclose, hd, or_true,
          if_true]
        constructor
        · intro h
          split at h <;> simp_all
        · rintro ⟨h1, -⟩
          simp_all
      · simp only [captureFrame, hs, Bool.false_eq_true, if_false, hclose, hd, or_true,
          if_true]
        constructor
        · intro h
          split at h <;> simp_all
        · rintro ⟨-, h2⟩
          simp_all
    · simp only [Bool.not_eq_true] at hd
      by_cases htc : tc < captureTimeout
      · have : ¬captureTimeout ≤ tc := by omega
        simp only [captureFrame, hs, Bool.false_eq_true, if_false, hclose, hd, or_false,
          htc, if_true]
        constructor
        · constructor
          · intro h
            split at h <;> simp_all
          · rintro ⟨-, h2⟩
            exact absurd (h2 tc code rfl) this
        · constructor
          · intro h
            split at h <;> simp_all
          · rintro ⟨h1, -⟩
            simp_all
      · have hcond : ¬(tc < captureTimeout ∨ p.dataBeforeTimeout = true) := by
          simp [htc, hd]
        have hres : captureFrame p = .errorTimeout := by
          simp only [captureFrame, hs, Bool.false_eq_true, if_false, hclose]
          rw [if_neg hcond]
        rw [hres]
        constructor
        · constructor
          · intro _
            refine ⟨hd, ?_⟩
            intro tc' code' heq
            cases heq
            omega
          · intro _
            rfl
        · constructor
          · intro h
            cases h
          · rintro ⟨h1, -⟩
            rw [hd] at h1
            cases h1
  
theorem C3_amended_witness :
    (({ spawnError := false, chunks := [], close := none } : ProcRun).spawnError = false) ∧
    (captureFrame { spawnError := false, chunks := [], close := none } = .errorTimeout ↔
      (({ spawnError := false, chunks := [], close := none } : ProcRun).dataBeforeTimeout = false ∧
        ∀ tc code, ({ spawnError := false, chunks := [], close := none } : ProcRun).close
          = some (tc, code) → captureTimeout ≤ tc)) := by
  refine ⟨rfl, ?_⟩
  exact (C3_amended_theorem { spawnError := false, chunks := [], close := none } rfl).1

/-! ## Claim C4 -/

/-- C4 confirmed: whenever the capture promise is settled by the subprocess
`close` handler (the subprocess actually exits: it closes before the
timeout, or had produced data so the timeout did not kill it), the capture
resolves successfully iff the exit code is 0 and the accumulated buffer is
non-empty, and a zero-exit with an empty buffer rejects with a capture
error. -/
theorem C4_theorem (p : ProcRun) (tc : Nat) (code : Int)
    (hs : p.spawnError = false) (hc : p.close = some (tc, code))
    (hsettle : tc < captureTimeout ∨ p.dataBeforeTimeout = true) :
    ((∃ b, captureFrame p = .ok b) ↔ (code = 0 ∧ p.buffer ≠ [])) ∧
    (code = 0 → p.buffer = [] → captureFrame p = .errorCapture 0) := by
  have hopen : captureFrame p =
      if code = 0 ∧ p.hasData = true ∧ 0 < p.buffer.length then .ok p.buffer
      else .errorCapture code := by
    simp [captureFrame, hs, hc, hsettle]
  constructor
  · constructor
    · rintro ⟨b, hb⟩
      rw [hopen] at hb
      split at hb
      · rename_i hcond
        refine ⟨hcond.1, ?_⟩
        intro hnil
        have := hcond.2.2
        rw [hnil] at this
        simp at this
      · cases hb
    · rintro ⟨h0, hne⟩
      refine ⟨p.buffer, ?_⟩
      rw [hopen, if_pos ?_]
      exact ⟨h0, p.hasData_of_buffer_ne hne, List.length_pos_of_ne_nil hne⟩
  · intro h0 hnil
    rw [hopen, if_neg ?_, h0]
    rintro ⟨-, -, hlen⟩
    rw [hnil] at hlen
    simp at hlen

theorem C4_witness :
    (({ spawnError := false, chunks := [(1, [7])], close := some (2, 0) } : ProcRun).spawnError
        = false) ∧
    (({ spawnError := false, chunks := [(1, [7])], close := some (2, 0) } : ProcRun).close
        = some (2, 0)) ∧
    (2 < captureTimeout) ∧
    ((∃ b, captureFrame { spawnError := false, chunks := [(1, [7])], close := some (2, 0) }
        = .ok b) ↔
      ((0 : Int) = 0 ∧
        ({ spawnError := false, chunks := [(1, [7])], close := some (2, 0) } : ProcRun).buffer
          ≠ [])) := by
  refine ⟨rfl, rfl, by decide, ?_⟩
  exact (C4_theorem { spawnError := false, chunks := [(1, [7])], close := some (2, 0) }
    2 0 rfl rfl (Or.inl (by decide))).1

/-! ## Claim C7 -/

/-- C7 confirmed: every successful prediction appends its record through
`pushPrediction` (the `unshift` + `slice(0, 100)` ring); the new record is
the head (newest-first), the length after a push is `min 100 (old + 1)` so
any insertion sequence starting from the empty buffer stays within 100, and
a push into a full buffer drops exactly the last (oldest) entry. -/
theorem C7_theorem :
    (∀ (p : PredictionRecord) (ps : List PredictionRecord),
        (pushPrediction p ps).head? = some p) ∧
    (∀ (p : PredictionRecord) (ps : List PredictionRecord),
        (pushPrediction p ps).length = min 100 (ps.length + 1)) ∧
    (∀ inserts : List PredictionRecord,
        (inserts.foldl (fun acc p => pushPrediction p acc) []).length ≤ 100) ∧
    (∀ (p : PredictionRecord) (ps : List PredictionRecord), ps.length = 100 →
        pushPrediction p ps = p :: ps.dropLast) ∧
    (∀ (cam : Camera) (model : String) (ts : Nat) (res : String)
        (preds : List PredictionRecord),
        (sendPrediction cam model ts (.ok res) preds).1
          = pushPrediction { cameraId := cam.id, model := model, timestamp := ts,
                             result := res } preds) := by
  refine ⟨?_, pushPrediction_length, ?_, pushPrediction_eviction, ?_⟩
  · intro p ps
    simp only [pushPrediction]
    split
    · rfl
    · rfl
  · intro inserts
    have key : ∀ (l : List PredictionRecord) (acc : List PredictionRecord),
        acc.length ≤ 100 →
        (l.foldl (fun acc p => pushPrediction p acc) acc).length ≤ 100 := by
      intro l
      induction l with
      | nil => intro acc h; simpa using h
      | cons p l ih =>
          intro acc h
          simp only [List.foldl_cons]
          apply ih
          rw [pushPrediction_length]
          omega
    exact key inserts [] (by simp)
  · intro cam model ts res preds
    rfl

theorem C7_witness :
    (([] : List PredictionRecord).length = 100 ∨ True) ∧
    (pushPrediction { cameraId := 0, model := "m", timestamp := 0, result := "r" } []).head?
      = some { cameraId := 0, model := "m", timestamp := 0, result := "r" } := by
  exact ⟨Or.inr trivial,
    C7_theorem.1 { cameraId := 0, model := "m", timestamp := 0, result := "r" } []⟩

/-! ## Claim C9 -/

/-- C9, as stated, is false on the code: `response.data || [defaults]`
substitutes the defaults only for a falsy body; an empty array is truthy in
JavaScript, so an API response whose body is the empty list is returned
verbatim and the roster is empty after initialization. -/
theorem C9_counterexample :
    getModelList (.ok (.jsArr [])) = .jsArr [] ∧
    (JsData.jsArr []).rosterLength = 0 := by
  exact ⟨rfl, rfl⟩

/-- C9 amended: a failed fetch, or a falsy response body (`null`,
`undefined`, the empty string), yields the fixed default roster
`["bacterial-disease", "early-blight"]`, which is non-empty; but a truthy
empty-array body passes through unchanged, so the roster is not guaranteed
non-empty after initialization. -/
theorem C9_amended_theorem :
    (getModelList (.error ()) = .jsArr defaultModels) ∧
    (∀ d : JsData, d.truthy = false → getModelList (.ok d) = .jsArr defaultModels) ∧
    ((JsData.jsArr defaultModels).rosterLength ≠ 0) ∧
    (getModelList (.ok (.jsArr [])) = .jsArr []) := by
  refine ⟨rfl, ?_, by decide, rfl⟩
  intro d hd
  simp [getModelList, hd]

theorem C9_amended_witness :
    (JsData.jsNull.truthy = false) ∧
    (getModelList (.ok .jsNull) = .jsArr defaultModels) := by
  exact ⟨rfl, C9_amended_theorem.2.1 .jsNull rfl⟩

/-! ## Claim C10 -/

set_option maxRecDepth 4000 in
/-- C10 confirmed: `GET /api/status` reports
`totalPredictions: predictions.length`, the current length of the
prediction ring buffer; any insertion history starting from the empty
buffer keeps it at 100 or less, and after 101 successful insertions the
reported value is 100, not the all-time count 101. -/
theorem C10_theorem :
    (∀ (s : ServerState) (u : Nat),
        (statusOf s u).totalPredictions = s.predictions.length) ∧
    (∀ (inserts : List PredictionRecord) (s : ServerState) (u : Nat),
        s.predictions = inserts.foldl (fun acc p => pushPrediction p acc) [] →
        (statusOf s u).totalPredictions ≤ 100) ∧
    ((statusOf
        { cameras := [], currentModels := [], currentModelIndex := 0,
          predictions :=
            (List.replicate 101
              { cameraId := 0, model := "m", timestamp := 0, result := "r" }).foldl
              (fun acc p => pushPrediction p acc) [],
          systemErrors := [] } 0).totalPredictions = 100 ∧ (100 : Nat) ≠ 101) := by
  have hlen : ∀ (s : ServerState) (u : Nat),
      (statusOf s u).totalPredictions = s.predictions.length := by
    intro s u
    rfl
  refine ⟨hlen, ?_, ?_, by decide⟩
  · intro inserts s u hs
    rw [hlen, hs]
    have key : ∀ (l : List PredictionRecord) (acc : List PredictionRecord),
        acc.length ≤ 100 →
        (l.foldl (fun acc p => pushPrediction p acc) acc).length ≤ 100 := by
      intro l
      induction l with
      | nil => intro acc h; simpa using h
      | cons p l ih =>
          intro acc h
          simp only [List.foldl_cons]
          apply ih
          rw [pushPrediction_length]
          omega
    exact key inserts [] (by simp)
  · rw [hlen]
    rfl

theorem C10_witness :
    (({ cameras := [], currentModels := [], currentModelIndex := 0,
        predictions := [], systemErrors := [] } : ServerState).predictions
      = ([] : List PredictionRecord).foldl (fun acc p => pushPrediction p acc) []) ∧
    (statusOf
      { cameras := [], currentModels := [], currentModelIndex := 0,
        predictions := [], systemErrors := [] } 0).totalPredictions ≤ 100 := by
  exact ⟨rfl, C10_theorem.2.1 []
    { cameras := [], currentModels := [], currentModelIndex := 0,
      predictions := [], systemErrors := [] } 0 rfl⟩

/-! ## Per-camera and fold lemmas for the tick -/

theorem processCamera_of_success (model : String) (env : Nat → CamEnv)
    (acc : List ErrorRecord × List PredictionRecord) (cam : Camera)
    (buf : List Nat) (r : String)
    (h1 : captureFrame (env cam.id).proc = .ok buf)
    (h2 : (env cam.id).infer = .ok r) :
    processCamera model env acc cam =
      (acc.1, pushPrediction
        { cameraId := cam.id, model := model, timestamp := (env cam.id).tsPred,
          result := r } acc.2) := by
  simp [processCamera, h1, sendPrediction, h2]

theorem processCamera_preds_cases (model : String) (env : Nat → CamEnv)
    (acc : List ErrorRecord × List PredictionRecord) (cam : Camera) :
    (processCamera model env acc cam).2 = acc.2 ∨
    ∃ q, (processCamera model env acc cam).2 = pushPrediction q acc.2 := by
  simp only [processCamera]
  rcases captureFrame (env cam.id).proc with _ | _ | _ | _ | _
  · rcases h2 : (env cam.id).infer with _ | _ | _
    · right
      exact ⟨_, rfl⟩
    · left; rfl
    · left; rfl
  · left; rfl
  · left; rfl
  · left; rfl
  · left; rfl

theorem processCamera_errs_cases (model : String) (env : Nat → CamEnv)
    (acc : List ErrorRecord × List PredictionRecord) (cam : Camera) :
    (processCamera model env acc cam).1 = acc.1 ∨
    (isCaptureFailure (captureFrame (env cam.id).proc) = true ∧
      ∃ e1 e2 : ErrorRecord, e1.cameraId = cam.id ∧ e2.cameraId = cam.id ∧
        (processCamera model env acc cam).1
          = addSystemError e2 (addSystemError e1 acc.1)) := by
  simp only [processCamera]
  rcases captureFrame (env cam.id).proc with _ | code | _ | _ | _
  · rcases (env cam.id).infer with _ | _ | _ <;> left <;> rfl
  · right
    exact ⟨rfl, _, _, rfl, rfl, rfl⟩
  · right
    exact ⟨rfl, _, _, rfl, rfl, rfl⟩
  · right
    exact ⟨rfl, _, _, rfl, rfl, rfl⟩
  · left; rfl

theorem processCamera_errs_of_failure (model : String) (env : Nat → CamEnv)
    (acc : List ErrorRecord × List PredictionRecord) (cam : Camera)
    (h : isCaptureFailure (captureFrame (env cam.id).proc) = true) :
    ∃ e1 e2 : ErrorRecord, e1.cameraId = cam.id ∧ e2.cameraId = cam.id ∧
      (processCamera model env acc cam).1
        = addSystemError e2 (addSystemError e1 acc.1) := by
  simp only [processCamera]
  rcases hcf : captureFrame (env cam.id).proc with _ | code | _ | _ | _
  · rw [hcf] at h
    simp [isCaptureFailure] at h
  · exact ⟨{ cameraId := cam.id, error := closeFailMsg cam.id code,
             timestamp := (env cam.id).tsErr },
           { cameraId := cam.id, error := loopCatchMsg cam.id (closeFailMsg cam.id code),
             timestamp := (env cam.id).tsErr }, rfl, rfl, rfl⟩
  · exact ⟨{ cameraId := cam.id, error := timeoutMsg cam.id,
             timestamp := (env cam.id).tsErr },
           { cameraId := cam.id, error := loopCatchMsg cam.id (timeoutMsg cam.id),
             timestamp := (env cam.id).tsErr }, rfl, rfl, rfl⟩
  · exact ⟨{ cameraId := cam.id, error := spawnFailMsg cam.id,
             timestamp := (env cam.id).tsErr },
           { cameraId := cam.id, error := loopCatchMsg cam.id (spawnFailMsg cam.id),
             timestamp := (env cam.id).tsErr }, rfl, rfl, rfl⟩
  · rw [hcf] at h
    simp [isCaptureFailure] at h

theorem foldErrs_len (model : String) (env : Nat → CamEnv) :
    ∀ (comp : List Camera) (acc : List ErrorRecord × List PredictionRecord),
      (comp.foldl (processCamera model env) acc).1.length
        ≤ acc.1.length + 2 * comp.length := by
  intro comp
  induction comp with
  | nil => intro acc; simp
  | cons c comp ih =>
      intro acc
      simp only [List.foldl_cons, List.length_cons]
      have hstep : (processCamera model env acc c).1.length ≤ acc.1.length + 2 := by
        rcases processCamera_errs_cases model env acc c with hsame | ⟨-, e1, e2, -, -, heq⟩
        · rw [hsame]; omega
        · rw [heq, addSystemError_length, addSystemError_length]
          omega
      have := ih (processCamera model env acc c)
      omega

theorem foldErrs_mono (model : String) (env : Nat → CamEnv) :
    ∀ (comp : List Camera) (acc : List ErrorRecord × List PredictionRecord),
      acc.1.length + 2 * comp.length ≤ 50 →
      ∀ e ∈ acc.1, e ∈ (comp.foldl (processCamera model env) acc).1 := by
  intro comp
  induction comp with
  | nil => intro acc _ e he; simpa using he
  | cons c comp ih =>
      intro acc hcap e he
      simp only [List.length_cons] at hcap
      simp only [List.foldl_cons]
      have hstep : e ∈ (processCamera model env acc c).1 ∧
          (processCamera model env acc c).1.length ≤ acc.1.length + 2 := by
        rcases processCamera_errs_cases model env acc c with hsame | ⟨-, e1, e2, -, -, heq⟩
        · rw [hsame]; exact ⟨he, by omega⟩
        · rw [heq]
          rw [addSystemError_of_lt _ _ (by rw [addSystemError_length]; omega),
              addSystemError_of_lt _ _ (by omega)]
          exact ⟨by simp [he], by simp⟩
      exact ih (processCamera model env acc c) (by omega) e hstep.1

theorem foldErrs_provenance (model : String) (env : Nat → CamEnv) :
    ∀ (comp : List Camera) (acc : List ErrorRecord × List PredictionRecord)
      (e : ErrorRecord), e ∈ (comp.foldl (processCamera model env) acc).1 →
      e ∈ acc.1 ∨ ∃ c ∈ comp, e.cameraId = c.id ∧
        isCaptureFailure (captureFrame (env c.id).proc) = true := by
  intro comp
  induction comp with
  | nil => intro acc e he; left; simpa using he
  | cons c comp ih =>
      intro acc e he
      simp only [List.foldl_cons] at he
      rcases ih (processCamera model env acc c) e he with hin | ⟨c', hc', hid, hfail⟩
      · rcases processCamera_errs_cases model env acc c with hsame | ⟨hfail, e1, e2, h1, h2, heq⟩
        · rw [hsame] at hin
          exact Or.inl hin
        · rw [heq] at hin
          rcases mem_addSystemError _ _ _ hin with rfl | hin2
          · exact Or.inr ⟨c, by simp, h2, hfail⟩
          · rcases mem_addSystemError _ _ _ hin2 with rfl | hin3
            · exact Or.inr ⟨c, by simp, h1, hfail⟩
            · exact Or.inl hin3
      · exact Or.inr ⟨c', by simp [hc'], hid, hfail⟩

theorem mem_addSystemError_self (e : ErrorRecord) (es : List ErrorRecord) :
    e ∈ addSystemError e es := by
  simp only [addSystemError]
  split
  · rw [show (50 : Nat) = 49 + 1 by rfl, List.take_succ_cons]
    exact List.mem_cons_self e _
  · exact List.mem_cons_self e _

/-! ## Claim C1 -/

/-- C1, as stated, is false on the code: only *capture* failures append
error records.  An *inference* failure (here: HTTP status 500 from the
prediction API after a successful capture) is swallowed by
`sendPrediction`'s own catch, which just logs and returns `null`:
after such a tick `systemErrors` is still empty — no ErrorRecord was
appended anywhere, so the failure is not surfaced through the buffer. -/
theorem C1_counterexample :
    (predictionLoop
      (fun _ => { proc := { spawnError := false, chunks := [(1, [7])],
                            close := some (2, 0) },
                  infer := .httpError 500, tsPred := 0, tsErr := 0 })
      [{ id := 0, device := "/dev/video0", streamPort := 20000 }]
      { cameras := [{ id := 0, device := "/dev/video0", streamPort := 20000 }],
        currentModels := ["bacterial-disease"], currentModelIndex := 0,
        predictions := [], systemErrors := [] }).systemErrors = [] ∧
    (predictionLoop
      (fun _ => { proc := { spawnError := false, chunks := [(1, [7])],
                            close := some (2, 0) },
                  infer := .httpError 500, tsPred := 0, tsErr := 0 })
      [{ id := 0, device := "/dev/video0", streamPort := 20000 }]
      { cameras := [{ id := 0, device := "/dev/video0", streamPort := 20000 }],
        currentModels := ["bacterial-disease"], currentModelIndex := 0,
        predictions := [], systemErrors := [] }).predictions = [] := by
  exact ⟨rfl, rfl⟩

/-- C1 amended: the `systemErrors` store is a capacity-50 ring buffer with
newest-first insertion and oldest-evicted-on-overflow, but only *capture*
failures feed it (each failed capture appends two records: one from the
capture service, one from the orchestrator's catch); inference failures
append nothing.  Every record in the buffer after a tick that started with
an empty buffer belongs to a camera whose capture failed. -/
theorem C1_amended_theorem
    (s : ServerState) (env : Nat → CamEnv) (completion : List Camera) (cam : Camera)
    (hperm : completion.Perm s.cameras)
    (hn : s.systemErrors = [])
    (hcap : 2 * s.cameras.length ≤ 50)
    (hcam : cam ∈ s.cameras)
    (hne : s.cameras ≠ []) (hnm : s.currentModels ≠ []) :
    (isCaptureFailure (captureFrame (env cam.id).proc) = true →
      ∃ e ∈ (predictionLoop env completion s).systemErrors, e.cameraId = cam.id) ∧
    (∀ e ∈ (predictionLoop env completion s).systemErrors,
      ∃ c ∈ s.cameras, e.cameraId = c.id ∧
        isCaptureFailure (captureFrame (env c.id).proc) = true) ∧
    (∀ (e : ErrorRecord) (es : List ErrorRecord),
        (addSystemError e es).length = min 50 (es.length + 1)) ∧
    (∀ (e : ErrorRecord) (es : List ErrorRecord), es.length = 50 →
        addSystemError e es = e :: es.dropLast) := by
  have hguard : (s.cameras.isEmpty || s.currentModels.isEmpty) = false := by
    simp [List.isEmpty_iff, hne, hnm]
  have hloop : (predictionLoop env completion s).systemErrors =
      (completion.foldl (processCamera (usedModel s) env)
        (s.systemErrors, s.predictions)).1 := by
    simp [predictionLoop, hguard]
  refine ⟨?_, ?_, addSystemError_length, addSystemError_eviction⟩
  · intro hfail
    rw [hloop]
    have hmemcomp : cam ∈ completion := (hperm.mem_iff).2 hcam
    obtain ⟨l1, l2, hsplit⟩ := List.append_of_mem hmemcomp
    subst hsplit
    rw [List.foldl_append, List.foldl_cons]
    set acc1 := l1.foldl (processCamera (usedModel s) env) (s.systemErrors, s.predictions)
      with hacc1
    obtain ⟨e1, e2, hid1, hid2, heq⟩ :=
      processCamera_errs_of_failure (usedModel s) env acc1 cam hfail
    have hlen1 : acc1.1.length ≤ 2 * l1.length := by
      have := foldErrs_len (usedModel s) env l1 (s.systemErrors, s.predictions)
      rw [← hacc1] at this
      simp [hn] at this
      exact this
    have hlencomp : l1.length + 1 + l2.length = s.cameras.length := by
      have := hperm.length_eq
      simp at this
      omega
    have hlen2 : (processCamera (usedModel s) env acc1 cam).1.length ≤
        2 * l1.length + 2 := by
      rw [heq, addSystemError_length, addSystemError_length]
      omega
    refine ⟨e2, ?_, hid2⟩
    apply foldErrs_mono (usedModel s) env l2 _ (by omega)
    rw [heq]
    exact mem_addSystemError_self e2 _
  · intro e he
    rw [hloop] at he
    rcases foldErrs_provenance (usedModel s) env completion _ e he with hin | ⟨c, hc, hid, hfail⟩
    · rw [hn] at hin
      cases hin
    · exact ⟨c, (hperm.mem_iff).1 hc, hid, hfail⟩

theorem C1_amended_witness :
    (([{ id := 0, device := "/dev/video0", streamPort := 20000 }] : List Camera).Perm
      [{ id := 0, device := "/dev/video0", streamPort := 20000 }]) ∧
    (isCaptureFailure (captureFrame
        ({ proc := { spawnError := false, chunks := [], close := some (2, 1) },
           infer := .transportError, tsPred := 0, tsErr := 0 } : CamEnv).proc) = true →
      ∃ e ∈ (predictionLoop
          (fun _ => { proc := { spawnError := false, chunks := [], close := some (2, 1) },
                      infer := .transportError, tsPred := 0, tsErr := 0 })
          [{ id := 0, device := "/dev/video0", streamPort := 20000 }]
          { cameras := [{ id := 0, device := "/dev/video0", streamPort := 20000 }],
            currentModels := ["bacterial-disease"], currentModelIndex := 0,
            predictions := [], systemErrors := [] }).systemErrors,
        e.cameraId = 0) := by
  refine ⟨List.Perm.refl _, ?_⟩
  have h := C1_amended_theorem
    { cameras := [{ id := 0, device := "/dev/video0", streamPort := 20000 }],
      currentModels := ["bacterial-disease"], currentModelIndex := 0,
      predictions := [], systemErrors := [] }
    (fun _ => { proc := { spawnError := false, chunks := [], close := some (2, 1) },
                infer := .transportError, tsPred := 0, tsErr := 0 })
    [{ id := 0, device := "/dev/video0", streamPort := 20000 }]
    { id := 0, device := "/dev/video0", streamPort := 20000 }
    (List.Perm.refl _) rfl (by decide) (by decide) (by decide) (by decide)
  exact h.1

theorem mem_take_mono {α : Type} {a : α} {l : List α} {m n : Nat}
    (h : a ∈ l.take m) (hmn : m ≤ n) : a ∈ l.take n := by
  have heq : l.take m = (l.take n).take m := by
    rw [List.take_take, Nat.min_eq_left hmn]
  rw [heq] at h
  exact (List.take_subset _ _) h

theorem mem_pushPrediction_take (q r : PredictionRecord)
    (ps : List PredictionRecord) (k : Nat)
    (h : r ∈ ps.take k) (hk : k + 1 ≤ 100) :
    r ∈ (pushPrediction q ps).take (k + 1) := by
  have hcons : r ∈ (q :: ps).take (k + 1) := by
    rw [List.take_succ_cons]
    exact List.mem_cons_of_mem q h
  simp only [pushPrediction]
  split
  · rw [List.take_take, Nat.min_eq_left hk]
    exact hcons
  · exact hcons

theorem mem_pushPrediction_head (q : PredictionRecord)
    (ps : List PredictionRecord) : q ∈ (pushPrediction q ps).take 1 := by
  have hgen : ∀ l : List PredictionRecord, q ∈ (q :: l).take 1 := by
    intro l
    rw [show (1 : Nat) = 0 + 1 from rfl, List.take_succ_cons]
    exact List.mem_cons_self q _
  simp only [pushPrediction]
  split
  · rw [List.take_take, Nat.min_eq_left (by norm_num)]
    exact hgen ps
  · exact hgen ps

theorem foldPreds_take (model : String) (env : Nat → CamEnv) :
    ∀ (comp : List Camera) (acc : List ErrorRecord × List PredictionRecord)
      (r : PredictionRecord), r ∈ acc.2.take (100 - comp.length) →
      r ∈ (comp.foldl (processCamera model env) acc).2.take 100 := by
  intro comp
  induction comp with
  | nil => intro acc r h; simpa using h
  | cons c comp ih =>
      intro acc r h
      simp only [List.length_cons] at h
      simp only [List.foldl_cons]
      apply ih
      rcases processCamera_preds_cases model env acc c with hsame | ⟨q, hpush⟩
      · rw [hsame]
        exact mem_take_mono h (by omega)
      · rw [hpush]
        by_cases hbig : 100 ≤ comp.length + 1
        · rw [Nat.sub_eq_zero_of_le hbig] at h
          simp at h
        · have hk : 100 - (comp.length + 1) + 1 = 100 - comp.length := by omega
          rw [← hk]
          exact mem_pushPrediction_take q r acc.2 _ h (by omega)

/-! ## Claim C5 -/

/-- C5 confirmed: within one completed tick (each camera's capture/infer
promise settled; `Promise.all` waited on all of them; per-camera `catch`
blocks keep every rejection local), a camera whose capture and inference
both succeeded gets its `PredictionRecord` into the buffer whatever the
other cameras' outcomes (`env` is arbitrary at every other camera) and
whatever order the per-camera operations completed in. -/
theorem C5_theorem
    (s : ServerState) (env : Nat → CamEnv) (completion : List Camera)
    (cam : Camera) (buf : List Nat) (res : String)
    (hperm : completion.Perm s.cameras)
    (hlen : s.cameras.length ≤ 100)
    (hcam : cam ∈ s.cameras)
    (hsettled : ∀ c ∈ s.cameras, captureFrame (env c.id).proc ≠ .pending)
    (hcapture : captureFrame (env cam.id).proc = .ok buf)
    (hinfer : (env cam.id).infer = .ok res)
    (hne : s.cameras ≠ []) (hnm : s.currentModels ≠ []) :
    ∃ r ∈ (predictionLoop env completion s).predictions,
      r.cameraId = cam.id ∧ r.model = usedModel s ∧
      r.timestamp = (env cam.id).tsPred ∧ r.result = res := by
  have hguard : (s.cameras.isEmpty || s.currentModels.isEmpty) = false := by
    simp [List.isEmpty_iff, hne, hnm]
  have hloop : (predictionLoop env completion s).predictions =
      (completion.foldl (processCamera (usedModel s) env)
        (s.systemErrors, s.predictions)).2 := by
    simp [predictionLoop, hguard]
  rw [hloop]
  have hmemcomp : cam ∈ completion := (hperm.mem_iff).2 hcam
  obtain ⟨l1, l2, hsplit⟩ := List.append_of_mem hmemcomp
  subst hsplit
  rw [List.foldl_append, List.foldl_cons]
  set acc1 := l1.foldl (processCamera (usedModel s) env) (s.systemErrors, s.predictions)
    with hacc1
  have hstep := processCamera_of_success (usedModel s) env acc1 cam buf res hcapture hinfer
  have hlencomp : l1.length + 1 + l2.length = s.cameras.length := by
    have := hperm.length_eq
    simp at this
    omega
  refine ⟨{ cameraId := cam.id, model := usedModel s,
            timestamp := (env cam.id).tsPred, result := res }, ?_, rfl, rfl, rfl, rfl⟩
  have hin100 : ({ cameraId := cam.id, model := usedModel s,
                   timestamp := (env cam.id).tsPred, result := res } : PredictionRecord) ∈
      (l2.foldl (processCamera (usedModel s) env)
        (processCamera (usedModel s) env acc1 cam)).2.take 100 := by
    apply foldPreds_take
    rw [hstep]
    apply mem_take_mono (mem_pushPrediction_head _ _)
    omega
  exact (List.take_subset _ _) hin100

theorem C5_witness :
    (([{ id := 0, device := "/dev/video0", streamPort := 20000 }] : List Camera).Perm
      [{ id := 0, device := "/dev/video0", streamPort := 20000 }]) ∧
    (captureFrame { spawnError := false, chunks := [(1, [7])], close := some (2, 0) }
      = .ok [7]) ∧
    (∃ r ∈ (predictionLoop
        (fun _ => { proc := { spawnError := false, chunks := [(1, [7])],
                              close := some (2, 0) },
                    infer := .ok "healthy", tsPred := 3, tsErr := 3 })
        [{ id := 0, device := "/dev/video0", streamPort := 20000 }]
        { cameras := [{ id := 0, device := "/dev/video0", streamPort := 20000 }],
          currentModels := ["bacterial-disease"], currentModelIndex := 0,
          predictions := [], systemErrors := [] }).predictions,
      r.cameraId = 0 ∧
      r.model = usedModel
        { cameras := [{ id := 0, device := "/dev/video0", streamPort := 20000 }],
          currentModels := ["bacterial-disease"], currentModelIndex := 0,
          predictions := [], systemErrors := [] } ∧
      r.timestamp = 3 ∧ r.result = "healthy") := by
  refine ⟨List.Perm.refl _, rfl, ?_⟩
  exact C5_theorem
    { cameras := [{ id := 0, device := "/dev/video0", streamPort := 20000 }],
      currentModels := ["bacterial-disease"], currentModelIndex := 0,
      predictions := [], systemErrors := [] }
    (fun _ => { proc := { spawnError := false, chunks := [(1, [7])],
                          close := some (2, 0) },
                infer := .ok "healthy", tsPred := 3, tsErr := 3 })
    [{ id := 0, device := "/dev/video0", streamPort := 20000 }]
    { id := 0, device := "/dev/video0", streamPort := 20000 }
    [7] "healthy" (List.Perm.refl _) (by decide)
    (by decide)
    (by
      intro c hc
      show captureFrame { spawnError := false, chunks := [(1, [7])],
                          close := some (2, 0) } ≠ .pending
      decide)
    rfl rfl (by decide) (by decide)

theorem predictionLoop_cursor (env : Nat → CamEnv) (comp : List Camera)
    (s : ServerState) (hne : s.cameras ≠ []) (hnm : s.currentModels ≠ []) :
    (predictionLoop env comp s).currentModelIndex
      = (s.currentModelIndex + 1) % s.currentModels.length ∧
    (predictionLoop env comp s).currentModels = s.currentModels ∧
    (predictionLoop env comp s).cameras = s.cameras := by
  have hguard : (s.cameras.isEmpty || s.currentModels.isEmpty) = false := by
    simp [List.isEmpty_iff, hne, hnm]
  simp [predictionLoop, hguard]

theorem ticksAfter_roster3 (A B C : String) (cams : List Camera)
    (preds : List PredictionRecord) (errs : List ErrorRecord)
    (envs : Nat → Nat → CamEnv) (comps : Nat → List Camera)
    (hc : cams ≠ []) (k : Nat) :
    (ticksAfter envs comps
      { cameras := cams, currentModels := [A, B, C], currentModelIndex := 0,
        predictions := preds, systemErrors := errs } k).currentModelIndex = k % 3 ∧
    (ticksAfter envs comps
      { cameras := cams, currentModels := [A, B, C], currentModelIndex := 0,
        predictions := preds, systemErrors := errs } k).currentModels = [A, B, C] ∧
    (ticksAfter envs comps
      { cameras := cams, currentModels := [A, B, C], currentModelIndex := 0,
        predictions := preds, systemErrors := errs } k).cameras = cams := by
  induction k with
  | zero => exact ⟨rfl, rfl, rfl⟩
  | succ k ih =>
      obtain ⟨ih1, ih2, ih3⟩ := ih
      have hstep := predictionLoop_cursor (envs k) (comps k)
        (ticksAfter envs comps
          { cameras := cams, currentModels := [A, B, C], currentModelIndex := 0,
            predictions := preds, systemErrors := errs } k)
        (by rw [ih3]; exact hc) (by rw [ih2]; simp)
      obtain ⟨h1, h2, h3⟩ := hstep
      refine ⟨?_, ?_, ?_⟩
      · show (predictionLoop (envs k) (comps k) _).currentModelIndex = (k + 1) % 3
        rw [h1, ih1, ih2]
        simp only [List.length_cons, List.length_nil]
        omega
      · show (predictionLoop (envs k) (comps k) _).currentModels = [A, B, C]
        rw [h2, ih2]
      · show (predictionLoop (envs k) (comps k) _).cameras = cams
        rw [h3, ih3]

/-! ## Claim C6 -/

/-- C6 confirmed: a completed tick with cameras and a non-empty roster
advances `currentModelIndex` by exactly one modulo the roster length
(leaving roster and camera list untouched), regardless of the per-camera
outcomes and completion order; consequently with roster `[A, B, C]` and
cursor 0 the k-th completed tick uses model `[A, B, C][k % 3]`:
A, B, C, A, B, C, … -/
theorem C6_theorem :
    (∀ (env : Nat → CamEnv) (comp : List Camera) (s : ServerState),
        s.cameras ≠ [] → s.currentModels ≠ [] →
        (predictionLoop env comp s).currentModelIndex
            = (s.currentModelIndex + 1) % s.currentModels.length ∧
        (predictionLoop env comp s).currentModels = s.currentModels ∧
        (predictionLoop env comp s).cameras = s.cameras) ∧
    (∀ (A B C : String) (cams : List Camera) (preds : List PredictionRecord)
        (errs : List ErrorRecord) (envs : Nat → Nat → CamEnv)
        (comps : Nat → List Camera), cams ≠ [] → ∀ k : Nat,
        usedModel (ticksAfter envs comps
          { cameras := cams, currentModels := [A, B, C], currentModelIndex := 0,
            predictions := preds, systemErrors := errs } k)
          = [A, B, C].getD (k % 3) "") := by
  constructor
  · intro env comp s hne hnm
    exact predictionLoop_cursor env comp s hne hnm
  · intro A B C cams preds errs envs comps hc k
    obtain ⟨h1, h2, -⟩ := ticksAfter_roster3 A B C cams preds errs envs comps hc k
    simp only [usedModel, h1, h2]

theorem C6_witness :
    (([{ id := 0, device := "/dev/video0", streamPort := 20000 }] : List Camera) ≠ []) ∧
    (∀ k : Nat, usedModel (ticksAfter
        (fun _ _ => { proc := { spawnError := false, chunks := [], close := some (1, 1) },
                      infer := .transportError, tsPred := 0, tsErr := 0 })
        (fun _ => [{ id := 0, device := "/dev/video0", streamPort := 20000 }])
        { cameras := [{ id := 0, device := "/dev/video0", streamPort := 20000 }],
          currentModels := ["modelA", "modelB", "modelC"], currentModelIndex := 0,
          predictions := [], systemErrors := [] } k)
      = ["modelA", "modelB", "modelC"].getD (k % 3) "") := by
  refine ⟨by decide, ?_⟩
  intro k
  exact C6_theorem.2 "modelA" "modelB" "modelC"
    [{ id := 0, device := "/dev/video0", streamPort := 20000 }] [] []
    (fun _ _ => { proc := { spawnError := false, chunks := [], close := some (1, 1) },
                  infer := .transportError, tsPred := 0, tsErr := 0 })
    (fun _ => [{ id := 0, device := "/dev/video0", streamPort := 20000 }])
    (by decide) k

/-! ## Sorting and selection lemmas for resolution negotiation -/

theorem insertPixDesc_perm (a : ResCand) (l : List ResCand) :
    (insertPixDesc a l).Perm (a :: l) := by
  induction l with
  | nil => exact List.Perm.refl _
  | cons b bs ih =>
      simp only [insertPixDesc]
      split
      · exact List.Perm.refl _
      · exact (ih.cons b).trans (List.Perm.swap a b bs)

theorem sortFold_perm :
    ∀ (l acc : List ResCand),
      (l.foldl (fun acc a => insertPixDesc a acc) acc).Perm (l ++ acc) := by
  intro l
  induction l with
  | nil => intro acc; simp [List.Perm.refl]
  | cons x l ih =>
      intro acc
      simp only [List.foldl_cons, List.cons_append]
      exact ((ih _).trans
        ((List.Perm.append_left l (insertPixDesc_perm x acc)).trans
          List.perm_middle))

theorem sortPixDesc_perm (l : List ResCand) : (sortPixDesc l).Perm l := by
  have := sortFold_perm l []
  simpa [sortPixDesc] using this

theorem insertPixDesc_pairwise (a : ResCand) (l : List ResCand)
    (h : List.Pairwise (fun x y : ResCand => y.pixels ≤ x.pixels) l) :
    List.Pairwise (fun x y : ResCand => y.pixels ≤ x.pixels) (insertPixDesc a l) := by
  induction l with
  | nil => simp [insertPixDesc]
  | cons b bs ih =>
      rw [List.pairwise_cons] at h
      obtain ⟨hb, hbs⟩ := h
      simp only [insertPixDesc]
      split
      · rename_i hlt
        rw [List.pairwise_cons]
        refine ⟨?_, by rw [List.pairwise_cons]; exact ⟨hb, hbs⟩⟩
        intro y hy
        rcases List.mem_cons.1 hy with rfl | hy'
        · omega
        · have := hb y hy'
          omega
      · rename_i hge
        rw [List.pairwise_cons]
        refine ⟨?_, ih hbs⟩
        intro y hy
        have hmem : y = a ∨ y ∈ bs := by
          have := (insertPixDesc_perm a bs).mem_iff.1 hy
          simpa using this
        rcases hmem with rfl | hy'
        · omega
        · exact hb y hy'

theorem sortPixDesc_pairwise (l : List ResCand) :
    List.Pairwise (fun x y : ResCand => y.pixels ≤ x.pixels) (sortPixDesc l) := by
  have aux : ∀ (l acc : List ResCand),
      List.Pairwise (fun x y : ResCand => y.pixels ≤ x.pixels) acc →
      List.Pairwise (fun x y : ResCand => y.pixels ≤ x.pixels)
        (l.foldl (fun acc a => insertPixDesc a acc) acc) := by
    intro l
    induction l with
    | nil => intro acc h; simpa using h
    | cons x l ih =>
        intro acc h
        simp only [List.foldl_cons]
        exact ih _ (insertPixDesc_pairwise x acc h)
  exact aux l [] List.Pairwise.nil

theorem find?_max_of_pairwise :
    ∀ (l : List ResCand),
      List.Pairwise (fun x y : ResCand => y.pixels ≤ x.pixels) l →
      ∀ x, l.find? withinBound = some x →
      ∀ y ∈ l, withinBound y = true → y.pixels ≤ x.pixels := by
  intro l
  induction l with
  | nil =>
      intro _ x hx
      simp at hx
  | cons a as ih =>
      intro hp x hx y hy hyB
      rw [List.pairwise_cons] at hp
      obtain ⟨ha, has⟩ := hp
      by_cases hpa : withinBound a = true
      · rw [List.find?_cons_of_pos _ hpa] at hx
        cases hx
        rcases List.mem_cons.1 hy with rfl | hy'
        · exact Nat.le_refl _
        · exact ha y hy'
      · rw [List.find?_cons_of_neg _ hpa] at hx
        rcases List.mem_cons.1 hy with rfl | hy'
        · exact absurd hyB hpa
        · exact ih has x hx y hy' hyB

theorem selectResolution_spec (toks : List String) :
    (∃ c ∈ candidates toks, withinBound c = true ∧ selectResolution toks = c.res ∧
        ∀ c' ∈ candidates toks, withinBound c' = true → c'.pixels ≤ c.pixels) ∨
    ((∀ c ∈ candidates toks, withinBound c = false) ∧
        selectResolution toks = fallbackRes) := by
  rcases hf : (sortPixDesc (candidates toks)).find? withinBound with _ | c
  · right
    constructor
    · intro c hc
      have hcs : c ∈ sortPixDesc (candidates toks) :=
        (sortPixDesc_perm _).mem_iff.2 hc
      have := List.find?_eq_none.1 hf c hcs
      revert this
      rcases withinBound c with _ | _ <;> simp
    · simp [selectResolution, hf]
  · left
    have hmem : c ∈ sortPixDesc (candidates toks) := List.mem_of_find?_eq_some hf
    refine ⟨c, (sortPixDesc_perm _).mem_iff.1 hmem, List.find?_some hf,
      by simp [selectResolution, hf], ?_⟩
    intro c' hc' hB
    exact find?_max_of_pairwise _ (sortPixDesc_pairwise _) c hf c'
      ((sortPixDesc_perm _).mem_iff.2 hc') hB

/-! ## Claim C8 -/

/-- C8, as stated, is false on the code for the Linux path (the platform
the node actually targets): the Linux parser only accepts tokens written as
`Size: Discrete WIDTHxHEIGHT`, it does not extract bare `WIDTHxHEIGHT`
tokens.  A probe output containing the tokens `1920x1080` and `1280x720`
(one per line, without the `Size: Discrete` prefix) therefore yields no
candidates and the fallback `1280x720` is selected, not `1920x1080` as the
claim requires. -/
theorem C8_counterexample :
    detectCameraResolution false (.closes "1920x1080\n1280x720" 1) = "1280x720" ∧
    ("1280x720" : String) ≠ "1920x1080" := by
  exact ⟨by decide, by decide⟩

/-- C8 amended: token extraction is platform-dependent — on Windows every
`WIDTHxHEIGHT` token of the probe output is extracted, on Linux only tokens
in `Size: Discrete WIDTHxHEIGHT` form (first occurrence per line); the
extracted tokens are deduplicated, ranked by pixel count descending, the
first within 1920x1080 is selected (it carries the maximal pixel count
among all in-bound candidates), otherwise, or when the probe errors or hits
the 5-unit timeout, the fixed fallback `1280x720` is returned.  The claim's
two examples hold on the Windows path, and on the Linux path when the
tokens appear in `Size: Discrete` form. -/
theorem C8_amended_theorem :
    (∀ toks : List String,
        (∃ c ∈ candidates toks, withinBound c = true ∧
            selectResolution toks = c.res ∧
            ∀ c' ∈ candidates toks, withinBound c' = true →
              c'.pixels ≤ c.pixels) ∨
        ((∀ c ∈ candidates toks, withinBound c = false) ∧
            selectResolution toks = fallbackRes)) ∧
    (∀ win : Bool, detectCameraResolution win .errors = fallbackRes) ∧
    (∀ (win : Bool) (out : String) (t : Nat), probeTimeout ≤ t →
        detectCameraResolution win (.closes out t) = fallbackRes) ∧
    (∀ (win : Bool) (out : String) (t : Nat), t < probeTimeout →
        detectCameraResolution win (.closes out t)
          = selectResolution
              ((if win then extractWindows else extractLinux) out)) ∧
    (detectCameraResolution true (.closes "1920x1080 1280x720" 1)
        = "1920x1080") ∧
    (detectCameraResolution true (.closes "3840x2160" 1) = fallbackRes) ∧
    (detectCameraResolution false
        (.closes "Size: Discrete 1920x1080\nSize: Discrete 1280x720" 1)
        = "1920x1080") := by
  refine ⟨selectResolution_spec, fun win => rfl, ?_, ?_, by decide, by decide, by decide⟩
  · intro win out t ht
    have : ¬t < probeTimeout := by omega
    simp [detectCameraResolution, this]
  · intro win out t ht
    simp [detectCameraResolution, ht]

theorem C8_amended_witness :
    ((1 : Nat) < probeTimeout) ∧
    (detectCameraResolution true (.closes "640x480" 1)
      = selectResolution
          ((if true then extractWindows else extractLinux) "640x480")) ∧
    ((5 : Nat) ≤ 7 ∧ detectCameraResolution false (.closes "640x480" 7) = fallbackRes) := by
  refine ⟨by decide, ?_, by decide, ?_⟩
  · exact C8_amended_theorem.2.2.2.1 true "640x480" 1 (by decide)
  · exact C8_amended_theorem.2.2.1 false "640x480" 7 (by decide)
